import Mathlib

/-!
Shallow embedding of the Greenlight coordination state machine from
`app/views.py` of the CargoBot backend.

Modelling conventions:
* The process-local store `_GL_STORE` (a Python dict keyed by
  `f"{user_name}__{cargo_key}"`) is an insertion-ordered association list
  `Store := List (String × Record)`; updating an existing key keeps its
  position, inserting a new key appends (Python dict semantics).
* A stored record (a Python dict of optional fields) is a structure whose
  fields are all `Option`-typed; a field that is absent and a field that is
  present with value `None` are both `none` (every read in the source goes
  through `dict.get`, which identifies the two).
* Timestamps are integers (seconds): `django.utils.timezone.now()` becomes
  an explicit `now : Int` parameter, `datetime.isoformat` becomes
  `toString`, and `datetime.fromisoformat` becomes integer parsing
  (`String.py_to_int`), which fails on malformed input exactly where the
  source raises `ValueError`.  Timezone coercion (`is_naive`/`make_aware`)
  is the identity in this model.
* Firestore reads (`_load_cargo_doc` and friends) are an external
  collaborator; the user's inventory snapshot is passed as an explicit
  `ids : List String` parameter, and the optional `for_days` metadata of
  `_lookup_meta_for_id` as an `Option Int` parameter.
* `print` logging, HTTP method checks and JSON decoding are plumbing and
  are omitted; each view is modelled from the point where its input fields
  have been extracted from the request body.  Response dictionaries are
  modelled keeping the decision-relevant fields; constant echoes of the
  request inputs (`cargo_id`, `user_name` in `press_ack` responses) are
  omitted.
-/

/-- One stored Greenlight record (`_GL_STORE` value): a dict of optional
fields, all reads in the source going through `dict.get`. -/
structure Record where
  user : Option String := none
  cargo_id : Option String := none
  bm_id : Option String := none
  cargo_key : Option String := none
  armed : Option Bool := none
  pressed_once : Option Bool := none
  ready_for_auto_finalize : Option Bool := none
  pending_since : Option String := none
  ready_since : Option String := none
  press_phases : Option (List String) := none
  press_incarcare_before : Option String := none
  press_incarcare_final : Option String := none
  press_success : Option Bool := none
  press_message : Option String := none
  press_timpde_before : Option Int := none
  press_timpde_final : Option Int := none
  last_timp_de : Option Int := none
  last_incarcare : Option String := none
  last_after_click : Option String := none
deriving DecidableEq

/-- The in-memory store `_GL_STORE`, as an insertion-ordered association
list from composite key to record. -/
abbrev Store : Type := List (String × Record)

/-!
Models of the Python `str` primitives the source uses.  They are written
as structural recursion over the character list so that a proof can
evaluate them on concrete inputs (the corresponding `String` library
functions use well-founded recursion on byte positions, which the kernel
does not unfold).  They model the ASCII behaviour of `str.strip`,
`str.lower`, `str.upper`, `str.startswith`, `str.split` and `int(...)`,
which is the alphabet the source's identifiers live in.
-/

/-- Python `str.strip()`: drop whitespace from both ends. -/
def String.py_strip (s : String) : String :=
  String.mk (((s.data.dropWhile Char.isWhitespace).reverse.dropWhile
    Char.isWhitespace).reverse)

/-- Python `str.lower()` (ASCII). -/
def String.py_lower (s : String) : String :=
  String.mk (s.data.map Char.toLower)

/-- Python `str.upper()` (ASCII). -/
def String.py_upper (s : String) : String :=
  String.mk (s.data.map Char.toUpper)

/-- Python `str.startswith(pre)`. -/
def String.py_startswith (s pre : String) : Bool :=
  pre.data.isPrefixOf s.data

/-- Value of a list of decimal digits. -/
def digitsVal (l : List Char) : Nat :=
  l.foldl (fun acc c => acc * 10 + (c.toNat - 48)) 0

/-- Python `int(s)` restricted to an optional minus sign followed by
decimal digits (the only shape this system feeds it); `none` when the
string is not of that shape (the `ValueError` path). -/
def String.py_to_int (s : String) : Option Int :=
  match s.data with
  | [] => none
  | '-' :: rest =>
    if rest ≠ [] ∧ rest.all Char.isDigit then some (-(digitsVal rest : Int)) else none
  | l =>
    if l.all Char.isDigit then some ((digitsVal l : Int)) else none

/-- `_gl_key`: composite store key. -/
def gl_key (user_name cargo_key : String) : String :=
  user_name ++ "__" ++ cargo_key

/-- Dict lookup on the association-list store (first match). -/
def storeLookup : Store → String → Option Record
  | [], _ => none
  | kd :: rest, k => if kd.1 = k then some kd.2 else storeLookup rest k

/-- Dict assignment: replace in place if the key exists (keeping its
position), append otherwise. -/
def storePut : Store → String → Record → Store
  | [], k, r => [(k, r)]
  | kd :: rest, k, r => if kd.1 = k then (k, r) :: rest else kd :: storePut rest k r

/-- `_gl_get`: copy of the current record, or an empty record if absent. -/
def gl_get (s : Store) (user_name cargo_key : String) : Record :=
  (storeLookup s (gl_key user_name cargo_key)).getD {}

/-- `_gl_set`: overlay `updates` onto the existing record when `merge`,
else replace the record wholesale.  Each call site's update dict is the
function `updates` applied to the current record. -/
def gl_set (user_name cargo_key : String) (updates : Record → Record)
    (merge : Bool) (s : Store) : Store :=
  let k := gl_key user_name cargo_key
  let cur := if merge then (storeLookup s k).getD {} else {}
  storePut s k (updates cur)

/-- `k.split("__", 1)[1]` of `_gl_find_recent_pending_for_user`: the part
of the composite key after the first `"__"`, or `none` when the separator
is absent (the `ValueError` path). -/
def split_key_cargo_aux : List Char → Option (List Char)
  | [] => none
  | '_' :: '_' :: rest => some rest
  | _ :: rest => split_key_cargo_aux rest

def split_key_cargo (k : String) : Option String :=
  (split_key_cargo_aux k.data).map String.mk

/-- `_digits`: the trailing run of digits of `s` (`re.search(r"(\d+)$", s)`),
or `""` when `s` does not end in a digit. -/
def digits (s : String) : String :=
  String.mk ((s.data.reverse.takeWhile Char.isDigit).reverse)

/-- `_resolve_bm_for_cargo`, with the Firestore `ids` list passed as a
snapshot: first inventory entry whose trailing digits equal
`cargo_id_digits`. -/
def resolve_bm_for_cargo (user_name : String) (ids : List String)
    (cargo_id_digits : String) : String :=
  if user_name = "" ∨ cargo_id_digits = "" then ""
  else
    match ids.find? (fun x => (digits x != "") && (digits x == cargo_id_digits)) with
    | some x => x
    | none => ""

/-- `_pick_cargo_key`. -/
def pick_cargo_key (cargo_id bm_id : String) : String :=
  let cid := cargo_id.py_strip
  let bid := bm_id.py_strip
  if bid ≠ "" then bid
  else if cid.py_upper.py_startswith "BM-" then cid
  else cid

/-- `_standard_cargo_key`: the consistent cargo key used by all endpoints.
Returns `(cargo_key, bm_id)`. -/
def standard_cargo_key (user_name cargo_id bm_id_in : String)
    (ids : List String) : String × String :=
  let cid := cargo_id.py_strip
  if cid.py_upper.py_startswith "BM-" then (cid, cid)
  else
    let suf := digits cid
    let bm := if bm_id_in.py_strip ≠ "" then bm_id_in.py_strip
              else resolve_bm_for_cargo user_name ids suf
    (pick_cargo_key cid bm, bm)

/-- `norm_incarcare` (local helper of `press_ack`): strip, and map the
placeholder dashes to the empty string. -/
def norm_incarcare (s : String) : String :=
  let t := s.py_strip
  if t = "" ∨ t = "-" ∨ t = "–" ∨ t = "—" then "" else t

/-- Timestamp parse (`datetime.fromisoformat` under the integer-seconds
timestamp model): `none` on malformed input. -/
def parse_timestamp (s : String) : Option Int :=
  s.py_to_int

/-- Timestamp serialization (`datetime.isoformat` under the model). -/
def isoformat (t : Int) : String :=
  toString t

/-- Loop body of `_gl_find_recent_pending_for_user`: the chain of
`continue` filters, then keep the freshest parsed `pending_since`. -/
def gl_scan_step (user_name : String) (max_age_sec : Int) (require_ready : Bool)
    (now : Int) (best : Option (String × Record × Int)) (kd : String × Record) :
    Option (String × Record × Int) :=
  let d := kd.2
  if (d.user.getD "") ≠ user_name then best
  else if ! (d.armed.getD false) then best
  else if d.pressed_once.getD false then best
  else if require_ready && ! (d.ready_for_auto_finalize.getD false) then best
  else
    match d.pending_since with
    | none => best
    | some ps_raw =>
      let ps := ps_raw.py_strip
      if ps = "" then best
      else
        match parse_timestamp ps with
        | none => best
        | some t =>
          if now - t ≤ max_age_sec then
            match best with
            | none => some (kd.1, d, t)
            | some b => if t > b.2.2 then some (kd.1, d, t) else best
          else best

/-- `_gl_find_recent_pending_for_user`: scan the whole store for this
user's freshest pending ready item inside the time window. -/
def gl_find_recent_pending_for_user (user_name : String) (max_age_sec : Int)
    (require_ready : Bool) (now : Int) (s : Store) : Option (String × Record) :=
  match s.foldl (gl_scan_step user_name max_age_sec require_ready now) none with
  | none => none
  | some (k, d, _) =>
    match split_key_cargo k with
    | none => none
    | some cargo_key => some (cargo_key, d)

/-- `_gl_finalize_success`: mark success in memory.  The `reason` tag is
only printed by the source, never used in the computation. -/
def gl_finalize_success (user_name cargo_key : String) (gl_doc : Record)
    (reason : String) (now : Int) (s : Store) : Store :=
  let _ := reason
  let user := if gl_doc.user.getD "" = "" then user_name else gl_doc.user.getD ""
  gl_set user cargo_key (fun cur =>
    { cur with
      pressed_once := some true
      armed := some false
      press_incarcare_final := some ""
      press_success := some true
      press_message := some "Publish Successful!"
      pending_since := none
      last_after_click := some (isoformat now)
      ready_for_auto_finalize := some false }) true s

/-- Response of `press_ack` (decision-relevant fields: `success` is
`None`/`True`/`False` in the source, `message` the human-readable verdict;
the 400 error responses are the `err` constructor). -/
inductive AckOut where
  | err (msg : String)
  | resp (success : Option Bool) (message : String)
deriving DecidableEq

/-- The `press_ack` view: the phase protocol.  Inputs are the extracted
request fields (`timp_de` already through the `int(...)`-or-`None`
conversion), `ids` the Firestore inventory snapshot, `now` the clock. -/
def press_ack (user_name_in cargo_id_in bm_id_in_raw incarcare_in when_in : String)
    (timp_de : Option Int) (ids : List String) (now : Int) (s : Store) :
    Store × AckOut :=
  let user_name := user_name_in.py_strip
  let cargo_id := cargo_id_in.py_strip
  let bm_id_in := bm_id_in_raw.py_strip
  let incar_raw := incarcare_in.py_strip
  let when := when_in.py_strip.py_lower
  let incarcare := norm_incarcare incar_raw
  -- If missing data, just echo result for logging/UX
  if user_name = "" ∨ cargo_id = "" then
    let success := (when = "after_click" ∨ when = "post_flow") ∧ incarcare = ""
    let message :=
      if success then "Publish Successful!"
      else if when = "after_click" ∨ when = "post_flow" then "Publish Failed!"
      else "Recorded."
    (s, AckOut.resp (some (decide success)) message)
  else
    let kb := standard_cargo_key user_name cargo_id bm_id_in ids
    let cargo_key := kb.1
    let d := gl_get s user_name cargo_key
    let bm_id := (if d.bm_id.getD "" ≠ "" then d.bm_id.getD "" else kb.2).py_strip
    let press_phases0 := d.press_phases.getD []
    let incar_before0 := (d.press_incarcare_before.getD "").py_strip
    let press_success := d.press_success
    let press_message := d.press_message
    let timpde_before0 := d.press_timpde_before
    let timpde_final0 := d.press_timpde_final
    let press_phases :=
      if when ≠ "" ∧ ¬ press_phases0.contains when then press_phases0 ++ [when]
      else press_phases0
    if when = "prepared" then
      -- Remember a candidate "timp_de" and arm (idempotent).
      let timpde_before := match timp_de with
        | some t => some t
        | none => timpde_before0
      let s' := gl_set user_name cargo_key (fun cur =>
        { cur with
          user := some user_name
          cargo_id := some cargo_id
          bm_id := some bm_id
          cargo_key := some cargo_key
          armed := some true
          pressed_once := some false
          last_timp_de := timpde_before
          press_phases := some press_phases }) true s
      (s', AckOut.resp none "Recorded.")
    else if when = "before_click" then
      let incar_before := if incar_before0 = "" then incarcare else incar_before0
      let timpde_before := match timp_de with
        | some t => some t
        | none => timpde_before0
      let s' := gl_set user_name cargo_key (fun cur =>
        { cur with
          user := some user_name
          cargo_id := some cargo_id
          bm_id := some bm_id
          cargo_key := some cargo_key
          armed := some true
          pressed_once := some false
          pending_since := some (isoformat now)
          last_timp_de := timpde_before
          last_incarcare := some incar_before
          press_phases := some press_phases
          press_incarcare_before := some incar_before
          press_timpde_before := timpde_before
          ready_for_auto_finalize := some true
          ready_since := some (isoformat now) }) true s
      (s', AckOut.resp none "Recorded. Checking publish result…")
    else if when = "after_click" ∨ when = "post_flow" then
      match press_success with
      | none =>
        let incar_final := incarcare
        let timpde_final := match timp_de with
          | some t => some t
          | none =>
            match timpde_final0 with
            | some tf => some tf
            | none => timpde_before0
        let success := incar_final = ""
        let message := if success then "Publish Successful!" else "Publish Failed!"
        let s' := gl_set user_name cargo_key (fun cur =>
          { cur with
            user := some user_name
            cargo_id := some cargo_id
            bm_id := some bm_id
            cargo_key := some cargo_key
            armed := some false
            pressed_once := some true
            press_phases := some press_phases
            press_incarcare_final := some incar_final
            press_success := some (decide success)
            press_message := some message
            press_timpde_before := timpde_before0
            press_timpde_final := timpde_final
            pending_since := none
            ready_for_auto_finalize := some false
            last_after_click := some (isoformat now) }) true s
        (s', AckOut.resp (some (decide success)) message)
      | some ps =>
        -- late duplicate finalize → just echo existing result
        let final_msg :=
          if press_message.getD "" ≠ "" then press_message.getD ""
          else if ps then "Publish Successful!" else "Publish Failed!"
        (s, AckOut.resp (some ps) final_msg)
    else
      -- generic phase record
      let s' := gl_set user_name cargo_key (fun cur =>
        let cur' :=
          { cur with
            user := some user_name
            cargo_id := some cargo_id
            bm_id := some bm_id
            cargo_key := some cargo_key
            press_phases := some press_phases }
        match timp_de with
        | some t => { cur' with press_timpde_before := some t }
        | none => cur') true s
      (s', AckOut.resp none "Recorded.")

/-- Response of `page_ping` (decision-relevant fields). -/
structure PingResp where
  ok : Bool
  go : Bool
  message : Option String
  for_days : Option Int
  cargo_key : Option String
deriving DecidableEq

/-- The `page_ping` view.  `for_days_meta` is the `for_days` value of the
external `_lookup_meta_for_id` snapshot. -/
def page_ping (page_in user_name_in cargo_id_in bm_id_in_raw page_state_in url_in_raw : String)
    (ids : List String) (for_days_meta : Option Int) (now : Int) (s : Store) :
    Store × PingResp :=
  let page := page_in.py_strip.py_lower
  let user_name := user_name_in.py_strip
  let cargo_id := cargo_id_in.py_strip
  let bm_id_in := bm_id_in_raw.py_strip
  let page_state := page_state_in.py_strip.py_lower
  let url_in := url_in_raw.py_strip
  if page = "active" then (s, ⟨true, false, none, none, none⟩)
  else if page = "deleted" then (s, ⟨true, false, none, none, none⟩)
  else if page ≠ "addload" then (s, ⟨true, false, none, none, none⟩)
  else if cargo_id = "" then
    -- No cargo_id → empty addload page after navigation (success/fail echo)
    let result_message :=
      if url_in.py_strip = "https://www.bursatransport.com/freightexchange/addload"
      then "Publish successful" else "Publish failed"
    -- Auto-finalize if we recently saw "before_click"
    let s' :=
      if user_name ≠ "" ∧ page_state = "empty" then
        match gl_find_recent_pending_for_user user_name 12 true now s with
        | some (cargo_key, gl_doc) =>
          -- `if cargo_key and gl_doc:` — a scan hit always has a non-empty
          -- dict (`armed` is set), so only the key's truthiness matters.
          if cargo_key ≠ "" then
            gl_finalize_success user_name cargo_key gl_doc
              "auto-finalize via addload ping with page_state=empty" now s
          else s
        | none => s
      else s
    (s', ⟨true, false, some result_message, none, none⟩)
  else
    let kb := standard_cargo_key user_name cargo_id bm_id_in ids
    let cargo_key := kb.1
    let bm_id := kb.2
    -- Arm immediately when we reach the cargo publish page.
    let d := gl_get s user_name cargo_key
    let armed := d.armed.getD false
    let pressed_once := d.pressed_once.getD false
    let arm_res :=
      if ¬ pressed_once ∧ ¬ armed then
        (gl_set user_name cargo_key (fun cur =>
          { cur with
            user := some user_name
            cargo_id := some cargo_id
            bm_id := some bm_id
            cargo_key := some cargo_key
            armed := some true
            pressed_once := some false }) false s, true)
      else (s, armed && ! pressed_once)
    -- Optional meta — not used to decide pressing anymore
    let fd0 := match for_days_meta with
      | some v => if v = 0 then 1 else v
      | none => 1
    let for_days := if fd0 ≤ 0 then 1 else fd0
    (arm_res.1, ⟨true, arm_res.2, none, some for_days, some cargo_key⟩)

/-- Response of `greenlight_check`. -/
inductive CheckOut where
  | err (msg : String)
  | resp (go : Bool) (cargo_key : String)
deriving DecidableEq

/-- The `greenlight_check` view: the single press-consumption point. -/
def greenlight_check (user_name_in cargo_id_in bm_id_in : String)
    (ids : List String) (s : Store) : Store × CheckOut :=
  let user_name := user_name_in.py_strip
  let cargo_id := cargo_id_in.py_strip
  if user_name = "" then (s, .err "Missing user_name")
  else if cargo_id = "" then (s, .err "Missing cargo_id")
  else
    let kb := standard_cargo_key user_name cargo_id bm_id_in ids
    let cargo_key := kb.1
    let d := gl_get s user_name cargo_key
    let armed := d.armed.getD false
    let pressed_once := d.pressed_once.getD false
    if armed && ! pressed_once then
      (gl_set user_name cargo_key (fun cur =>
        { cur with armed := some false, pressed_once := some true }) true s,
       .resp true cargo_key)
    else (s, .resp false cargo_key)

/-- Response of `set_greenlight`. -/
inductive SetOut where
  | err (msg : String)
  | resp (armed : Bool) (cargo_key : String)
deriving DecidableEq

/-- The `set_greenlight` view: explicit arm override. -/
def set_greenlight (user_name_in cargo_id_in : String) (press : Bool)
    (bm_id_in : String) (ids : List String) (s : Store) : Store × SetOut :=
  let user_name := user_name_in.py_strip
  let cargo_id := cargo_id_in.py_strip
  if user_name = "" ∨ cargo_id = "" then (s, .err "Missing user_name or cargo_id")
  else
    let kb := standard_cargo_key user_name cargo_id bm_id_in ids
    let cargo_key := kb.1
    let bm_id := kb.2
    let s' := gl_set user_name cargo_key (fun cur =>
      { cur with
        armed := some press
        pressed_once := some (! press)
        user := some user_name
        cargo_id := some cargo_id
        bm_id := some bm_id
        cargo_key := some cargo_key }) true s
    (s', .resp press cargo_key)

/-- One store-mutating request against the coordination state machine. -/
inductive GlOp where
  | pagePing (page user cargo bm page_state url : String)
      (ids : List String) (for_days_meta : Option Int) (now : Int)
  | check (user cargo bm : String) (ids : List String)
  | ack (user cargo bm incarcare when : String) (timp_de : Option Int)
      (ids : List String) (now : Int)
  | setGl (user cargo : String) (press : Bool) (bm : String) (ids : List String)

/-- Effect of one request on the store. -/
def applyGlOp (op : GlOp) (s : Store) : Store :=
  match op with
  | .pagePing p u c b ps url ids fdm now => (page_ping p u c b ps url ids fdm now s).1
  | .check u c b ids => (greenlight_check u c b ids s).1
  | .ack u c b i w t ids now => (press_ack u c b i w t ids now s).1
  | .setGl u c p b ids => (set_greenlight u c p b ids s).1

/-- Run a sequence of requests from the empty (process-start) store. -/
def runGlOps (ops : List GlOp) : Store :=
  ops.foldl (fun s op => applyGlOp op s) ([] : Store)

/-- The per-record safety property of claim C8: `armed` and `pressed_once`
are never both true. -/
def invRec (d : Record) : Prop :=
  ¬ (d.armed.getD false = true ∧ d.pressed_once.getD false = true)

/-- The store-wide invariant: every stored record satisfies `invRec`. -/
def invStore (s : Store) : Prop :=
  ∀ kd ∈ s, invRec kd.2

/-- The filter chain of the recovery scan, as described by the spec: the
parsed `pending_since` timestamp of a record that has the right owner, is
armed, not pressed, and (when `require_ready`) marked ready; `none` when
any filter fails or the timestamp is missing, blank or unparseable. -/
def rec_ts (user_name : String) (require_ready : Bool) (d : Record) : Option Int :=
  if (d.user.getD "") ≠ user_name then none
  else if ! (d.armed.getD false) then none
  else if d.pressed_once.getD false then none
  else if require_ready && ! (d.ready_for_auto_finalize.getD false) then none
  else
    match d.pending_since with
    | none => none
    | some ps_raw =>
      let ps := ps_raw.py_strip
      if ps = "" then none
      else parse_timestamp ps

/-- The `go` flag of a `greenlight_check` response (`false` on the error
responses, which carry no `go`). -/
def check_go : CheckOut → Bool
  | .err _ => false
  | .resp g _ => g

/-- Iterate `greenlight_check` with fixed inputs `n` times, collecting the
final store and the sequence of `go` answers. -/
def gl_check_iter (user_name_in cargo_id_in bm_id_in : String)
    (ids : List String) : Nat → Store → Store × List Bool
  | 0, s => (s, [])
  | n + 1, s =>
    let r := greenlight_check user_name_in cargo_id_in bm_id_in ids s
    let rest := gl_check_iter user_name_in cargo_id_in bm_id_in ids n r.1
    (rest.1, check_go r.2 :: rest.2)

/-- A record in the ready window (fixture for concrete scenarios):
owner `"u"`, armed, not pressed, ready, `pending_since` as given. -/
def ready_rec (ps : String) : Record :=
  { user := some "u"
    armed := some true
    pressed_once := some false
    ready_for_auto_finalize := some true
    pending_since := some ps }

/-- Fixture: a ready record whose last observed load-indicator value is
the non-empty string `"loaded"`. -/
def loaded_rec : Record :=
  { ready_rec "100" with
    last_incarcare := some "loaded"
    press_incarcare_before := some "loaded" }

/-- The `success` field of a `press_ack` response (`none` on error
responses). -/
def ack_success : AckOut → Option Bool
  | .err _ => none
  | .resp s _ => s

/-- Observed `pressed_once` flag of the record stored under raw key `k`
(false when the record or field is absent). -/
def store_pressed (s : Store) (k : String) : Bool :=
  ((storeLookup s k).getD {}).pressed_once.getD false

/-- Observed `armed` flag of the record stored under raw key `k`. -/
def store_armed (s : Store) (k : String) : Bool :=
  ((storeLookup s k).getD {}).armed.getD false

/-- Fixture: the store after one successful explicit finalize for key
`("u", "BM-7")`. -/
def finalized_store : Store :=
  (press_ack "u" "BM-7" "" "" "after_click" none [] 100 ([] : Store)).1

/-- Fixture: the store after explicitly arming key `("u", "BM-1")`. -/
def armed_store : Store :=
  (set_greenlight "u" "BM-1" true "" [] ([] : Store)).1

/-- Fixture: the store after explicitly un-arming key `("u", "C")`
(`press = false` marks the key pressed). -/
def pressed_store : Store :=
  (set_greenlight "u" "C" false "" [] ([] : Store)).1

/-- Fixture: three ready records for user `"u"`, observed at `now = 100`:
5 s old, 2 s old, and 13 s old. -/
def c7_store : Store :=
  [(gl_key "u" "A", ready_rec "95"), (gl_key "u" "B", ready_rec "98"),
   (gl_key "u" "Old", ready_rec "87")]

/-! ### Store lemmas -/

theorem storeLookup_mem {s : Store} {k : String} {r : Record}
    (h : storeLookup s k = some r) : (k, r) ∈ s := by
  induction s with
  | nil => simp [storeLookup] at h
  | cons kd rest ih =>
    rw [storeLookup] at h
    by_cases hk : kd.1 = k
    · rw [if_pos hk] at h
      cases h
      have hkd : (k, kd.2) = kd := by
        cases kd
        simp_all
      rw [hkd]
      exact List.mem_cons_self _ _
    · rw [if_neg hk] at h
      exact List.mem_cons_of_mem _ (ih h)

theorem mem_storePut {s : Store} {k : String} {r : Record} {kd : String × Record}
    (h : kd ∈ storePut s k r) : kd ∈ s ∨ kd = (k, r) := by
  induction s with
  | nil =>
    rw [storePut] at h
    simp at h
    right
    exact h
  | cons kd' rest ih =>
    rw [storePut] at h
    by_cases hk : kd'.1 = k
    · rw [if_pos hk] at h
      rcases List.mem_cons.mp h with h | h
      · right
        exact h
      · left
        exact List.mem_cons_of_mem _ h
    · rw [if_neg hk] at h
      rcases List.mem_cons.mp h with h | h
      · left
        exact List.mem_cons.mpr (Or.inl h)
      · rcases ih h with h | h
        · left
          exact List.mem_cons_of_mem _ h
        · right
          exact h

theorem storeLookup_storePut_self (s : Store) (k : String) (r : Record) :
    storeLookup (storePut s k r) k = some r := by
  induction s with
  | nil => simp [storePut, storeLookup]
  | cons kd rest ih =>
    rw [storePut]
    by_cases hk : kd.1 = k
    · rw [if_pos hk, storeLookup, if_pos rfl]
    · rw [if_neg hk, storeLookup, if_neg hk, ih]

theorem storeLookup_storePut_ne (s : Store) (k k' : String) (r : Record)
    (h : k' ≠ k) : storeLookup (storePut s k r) k' = storeLookup s k' := by
  induction s with
  | nil =>
    rw [storePut, storeLookup, storeLookup, if_neg (fun hh => h hh.symm)]
    rfl
  | cons kd rest ih =>
    rw [storePut]
    by_cases hk : kd.1 = k
    · rw [if_pos hk, storeLookup, storeLookup,
        if_neg (fun hh => h hh.symm),
        if_neg (fun hh => h (hk.symm.trans hh).symm)]
    · rw [if_neg hk, storeLookup, storeLookup, ih]

theorem gl_get_gl_set_merge (u c : String) (f : Record → Record) (s : Store) :
    gl_get (gl_set u c f true s) u c = f (gl_get s u c) := by
  unfold gl_get gl_set
  rw [storeLookup_storePut_self]
  rfl

theorem gl_get_gl_set_replace (u c : String) (f : Record → Record) (s : Store) :
    gl_get (gl_set u c f false s) u c = f {} := by
  unfold gl_get gl_set
  rw [storeLookup_storePut_self]
  rfl

theorem gl_get_gl_set_other (u c u' c' : String) (f : Record → Record)
    (mg : Bool) (s : Store) (h : gl_key u' c' ≠ gl_key u c) :
    gl_get (gl_set u c f mg s) u' c' = gl_get s u' c' := by
  unfold gl_get gl_set
  rw [storeLookup_storePut_ne _ _ _ _ h]

/-! ### Invariant machinery -/

theorem invRec_empty : invRec {} := by
  simp [invRec]

theorem invStore_gl_set {s : Store} (hs : invStore s) {u c : String}
    {f : Record → Record} {mg : Bool}
    (hf : ∀ cur, invRec cur → invRec (f cur)) : invStore (gl_set u c f mg s) := by
  intro kd hkd
  simp only [gl_set] at hkd
  rcases mem_storePut hkd with h | h
  · exact hs kd h
  · rw [h]
    apply hf
    split
    · cases hcur : storeLookup s (gl_key u c) with
      | none => exact invRec_empty
      | some r => exact hs (gl_key u c, r) (storeLookup_mem hcur)
    · exact invRec_empty

theorem invStore_gl_finalize_success {s : Store} (hs : invStore s)
    (u c : String) (doc : Record) (reason : String) (now : Int) :
    invStore (gl_finalize_success u c doc reason now s) := by
  unfold gl_finalize_success
  apply invStore_gl_set hs
  intro cur h
  simp [invRec]

theorem invStore_press_ack {s s' : Store} {out : AckOut} (hs : invStore s)
    {u c b i w : String} {t : Option Int} {ids : List String} {now : Int}
    (h : press_ack u c b i w t ids now s = (s', out)) : invStore s' := by
  simp only [press_ack] at h
  split at h
  · injection h with h1 h2
    subst h1
    exact hs
  · split at h
    · injection h with h1 h2
      subst h1
      apply invStore_gl_set hs
      intro cur hcur
      simp [invRec]
    · split at h
      · injection h with h1 h2
        subst h1
        apply invStore_gl_set hs
        intro cur hcur
        simp [invRec]
      · split at h
        · split at h
          · injection h with h1 h2
            subst h1
            apply invStore_gl_set hs
            intro cur hcur
            simp [invRec]
          · injection h with h1 h2
            subst h1
            exact hs
        · injection h with h1 h2
          subst h1
          apply invStore_gl_set hs
          intro cur hcur
          cases t <;> simpa [invRec] using hcur

theorem invStore_page_ping {s s' : Store} {out : PingResp} (hs : invStore s)
    {p u c b ps url : String} {ids : List String} {fdm : Option Int} {now : Int}
    (h : page_ping p u c b ps url ids fdm now s = (s', out)) : invStore s' := by
  simp only [page_ping] at h
  split at h
  · injection h with h1 h2
    subst h1
    exact hs
  · split at h
    · injection h with h1 h2
      subst h1
      exact hs
    · split at h
      · injection h with h1 h2
        subst h1
        exact hs
      · split at h
        · -- empty addload page: possible auto-finalize
          injection h with h1 h2
          subst h1
          split
          · split
            · split
              · exact invStore_gl_finalize_success hs _ _ _ _ _
              · exact hs
            · exact hs
          · exact hs
        · -- cargo page: possible arm
          injection h with h1 h2
          subst h1
          split
          · dsimp only
            apply invStore_gl_set hs
            intro cur hcur
            simp [invRec]
          · exact hs

theorem invStore_greenlight_check {s s' : Store} {out : CheckOut} (hs : invStore s)
    {u c b : String} {ids : List String}
    (h : greenlight_check u c b ids s = (s', out)) : invStore s' := by
  simp only [greenlight_check] at h
  split at h
  · injection h with h1 h2
    subst h1
    exact hs
  · split at h
    · injection h with h1 h2
      subst h1
      exact hs
    · split at h
      · injection h with h1 h2
        subst h1
        apply invStore_gl_set hs
        intro cur hcur
        simp [invRec]
      · injection h with h1 h2
        subst h1
        exact hs

theorem invStore_set_greenlight {s s' : Store} {out : SetOut} (hs : invStore s)
    {u c : String} {press : Bool} {b : String} {ids : List String}
    (h : set_greenlight u c press b ids s = (s', out)) : invStore s' := by
  simp only [set_greenlight] at h
  split at h
  · injection h with h1 h2
    subst h1
    exact hs
  · injection h with h1 h2
    subst h1
    apply invStore_gl_set hs
    intro cur hcur
    cases press <;> simp [invRec]

theorem invStore_applyGlOp {s : Store} (hs : invStore s) (op : GlOp) :
    invStore (applyGlOp op s) := by
  cases op with
  | pagePing p u c b ps url ids fdm now => exact invStore_page_ping hs rfl
  | check u c b ids => exact invStore_greenlight_check hs rfl
  | ack u c b i w t ids now => exact invStore_press_ack hs rfl
  | setGl u c press b ids => exact invStore_set_greenlight hs rfl

theorem invStore_foldl (ops : List GlOp) :
    ∀ s : Store, invStore s → invStore (ops.foldl (fun s op => applyGlOp op s) s) := by
  induction ops with
  | nil => exact fun s hs => hs
  | cons op rest ih =>
    intro s hs
    rw [List.foldl_cons]
    exact ih _ (invStore_applyGlOp hs op)

/-! ### Recovery-scan lemmas -/

theorem gl_scan_step_eq (u : String) (m : Int) (rr : Bool) (now : Int)
    (best : Option (String × Record × Int)) (kd : String × Record) :
    gl_scan_step u m rr now best kd =
      match rec_ts u rr kd.2 with
      | none => best
      | some t =>
        if now - t ≤ m then
          match best with
          | none => some (kd.1, kd.2, t)
          | some b => if t > b.2.2 then some (kd.1, kd.2, t) else best
        else best := by
  unfold gl_scan_step rec_ts
  dsimp only
  split_ifs with h1 h2 h3 h4 <;> try rfl
  cases hps : kd.2.pending_since with
  | none => rfl
  | some ps_raw =>
    dsimp only
    split_ifs with h5 <;> rfl

theorem scan_foldl_none_iff (u : String) (m : Int) (rr : Bool) (now : Int)
    (l : List (String × Record)) :
    ∀ best : Option (String × Record × Int),
      (l.foldl (gl_scan_step u m rr now) best = none ↔
        best = none ∧ ∀ kd ∈ l, ∀ t, rec_ts u rr kd.2 = some t → ¬ (now - t ≤ m)) := by
  induction l with
  | nil =>
    intro best
    simp
  | cons kd rest ih =>
    intro best
    rw [List.foldl_cons, ih, gl_scan_step_eq, List.forall_mem_cons]
    cases hrt : rec_ts u rr kd.2 with
    | none =>
      dsimp only
      constructor
      · rintro ⟨hb, hrest⟩
        refine ⟨hb, ?_, hrest⟩
        intro t ht
        cases ht
      · rintro ⟨hb, _, hrest⟩
        exact ⟨hb, hrest⟩
    | some t =>
      dsimp only
      by_cases hage : now - t ≤ m
      · rw [if_pos hage]
        constructor
        · rintro ⟨hb, -⟩
          exfalso
          cases best with
          | none => cases hb
          | some b =>
            dsimp only at hb
            by_cases hgt : t > b.2.2
            · rw [if_pos hgt] at hb
              cases hb
            · rw [if_neg hgt] at hb
              cases hb
        · rintro ⟨-, hkd, -⟩
          exact absurd hage (hkd t rfl)
      · rw [if_neg hage]
        constructor
        · rintro ⟨hb, hrest⟩
          refine ⟨hb, ?_, hrest⟩
          intro t' ht'
          cases ht'
          exact hage
        · rintro ⟨hb, -, hrest⟩
          exact ⟨hb, hrest⟩

theorem scan_foldl_some (u : String) (m : Int) (rr : Bool) (now : Int)
    (l : List (String × Record)) :
    ∀ (best : Option (String × Record × Int)) (res : String × Record × Int),
      l.foldl (gl_scan_step u m rr now) best = some res →
      (best = some res ∨
        ((res.1, res.2.1) ∈ l ∧ rec_ts u rr res.2.1 = some res.2.2 ∧ now - res.2.2 ≤ m))
      ∧ (∀ kd ∈ l, ∀ t, rec_ts u rr kd.2 = some t → now - t ≤ m → t ≤ res.2.2)
      ∧ (∀ b, best = some b → b.2.2 ≤ res.2.2) := by
  induction l with
  | nil =>
    intro best res h
    simp only [List.foldl_nil] at h
    refine ⟨Or.inl h, by simp, ?_⟩
    intro b hb
    rw [h] at hb
    cases hb
    exact le_refl _
  | cons kd rest ih =>
    intro best res h
    rw [List.foldl_cons, gl_scan_step_eq] at h
    cases hrt : rec_ts u rr kd.2 with
    | none =>
      rw [hrt] at h
      dsimp only at h
      obtain ⟨h1, h2, h3⟩ := ih best res h
      refine ⟨?_, ?_, h3⟩
      · rcases h1 with h1 | h1
        · exact Or.inl h1
        · exact Or.inr ⟨List.mem_cons_of_mem _ h1.1, h1.2⟩
      · intro kd' hkd' t' ht' hage'
        rcases List.mem_cons.mp hkd' with rfl | hm
        · rw [hrt] at ht'
          cases ht'
        · exact h2 kd' hm t' ht' hage'
    | some t =>
      rw [hrt] at h
      dsimp only at h
      by_cases hage : now - t ≤ m
      · rw [if_pos hage] at h
        cases best with
        | none =>
          dsimp only at h
          obtain ⟨h1, h2, h3⟩ := ih _ res h
          refine ⟨?_, ?_, ?_⟩
          · rcases h1 with h1 | h1
            · injection h1 with h1
              subst h1
              exact Or.inr ⟨List.mem_cons_self _ _, hrt, hage⟩
            · exact Or.inr ⟨List.mem_cons_of_mem _ h1.1, h1.2⟩
          · intro kd' hkd' t' ht' hage'
            rcases List.mem_cons.mp hkd' with rfl | hm
            · rw [hrt] at ht'
              injection ht' with ht'
              subst ht'
              exact h3 _ rfl
            · exact h2 kd' hm t' ht' hage'
          · intro b hb
            cases hb
        | some b0 =>
          dsimp only at h
          by_cases hgt : t > b0.2.2
          · rw [if_pos hgt] at h
            obtain ⟨h1, h2, h3⟩ := ih _ res h
            refine ⟨?_, ?_, ?_⟩
            · rcases h1 with h1 | h1
              · injection h1 with h1
                subst h1
                exact Or.inr ⟨List.mem_cons_self _ _, hrt, hage⟩
              · exact Or.inr ⟨List.mem_cons_of_mem _ h1.1, h1.2⟩
            · intro kd' hkd' t' ht' hage'
              rcases List.mem_cons.mp hkd' with rfl | hm
              · rw [hrt] at ht'
                injection ht' with ht'
                subst ht'
                exact h3 _ rfl
              · exact h2 kd' hm t' ht' hage'
            · intro b hb
              injection hb with hb
              subst hb
              exact le_trans (le_of_lt hgt) (h3 _ rfl)
          · rw [if_neg hgt] at h
            obtain ⟨h1, h2, h3⟩ := ih _ res h
            refine ⟨?_, ?_, h3⟩
            · rcases h1 with h1 | h1
              · exact Or.inl h1
              · exact Or.inr ⟨List.mem_cons_of_mem _ h1.1, h1.2⟩
            · intro kd' hkd' t' ht' hage'
              rcases List.mem_cons.mp hkd' with rfl | hm
              · rw [hrt] at ht'
                injection ht' with ht'
                subst ht'
                exact le_trans (le_of_not_lt hgt) (h3 _ rfl)
              · exact h2 kd' hm t' ht' hage'
      · rw [if_neg hage] at h
        obtain ⟨h1, h2, h3⟩ := ih best res h
        refine ⟨?_, ?_, h3⟩
        · rcases h1 with h1 | h1
          · exact Or.inl h1
          · exact Or.inr ⟨List.mem_cons_of_mem _ h1.1, h1.2⟩
        · intro kd' hkd' t' ht' hage'
          rcases List.mem_cons.mp hkd' with rfl | hm
          · rw [hrt] at ht'
            injection ht' with ht'
            subst ht'
            exact absurd hage' hage
          · exact h2 kd' hm t' ht' hage'

/-- C7: the recovery scan returns `none` exactly when no stored record
qualifies (right owner, armed, not pressed, ready when required, parseable
fresh `pending_since`); on a hit it returns a qualifying record whose
timestamp is maximal among all qualifying records. -/
theorem c7_recovery_scan (u : String) (m : Int) (rr : Bool) (now : Int) (s : Store)
    (hk : ∀ kd ∈ s, (split_key_cargo kd.1).isSome) :
    (gl_find_recent_pending_for_user u m rr now s = none ↔
      ∀ kd ∈ s, ∀ t, rec_ts u rr kd.2 = some t → ¬ (now - t ≤ m))
    ∧ (∀ ck d, gl_find_recent_pending_for_user u m rr now s = some (ck, d) →
        ∃ k t, (k, d) ∈ s ∧ split_key_cargo k = some ck ∧ rec_ts u rr d = some t ∧
          now - t ≤ m ∧
          ∀ kd ∈ s, ∀ t', rec_ts u rr kd.2 = some t' → now - t' ≤ m → t' ≤ t) := by
  constructor
  · constructor
    · intro hres kd hkd t ht hage
      cases hf : s.foldl (gl_scan_step u m rr now) none with
      | none =>
        obtain ⟨-, hall⟩ := (scan_foldl_none_iff u m rr now s none).mp hf
        exact hall kd hkd t ht hage
      | some res =>
        obtain ⟨h1, -, -⟩ := scan_foldl_some u m rr now s none res hf
        rcases h1 with h1 | ⟨hmem, -, -⟩
        · cases h1
        · have hsp := hk _ hmem
          unfold gl_find_recent_pending_for_user at hres
          rw [hf] at hres
          dsimp only at hres
          cases hspc : split_key_cargo res.1 with
          | none =>
            rw [hspc] at hsp
            cases hsp
          | some ck =>
            rw [hspc] at hres
            cases hres
    · intro hq
      have hf : s.foldl (gl_scan_step u m rr now) none = none :=
        (scan_foldl_none_iff u m rr now s none).mpr ⟨rfl, hq⟩
      unfold gl_find_recent_pending_for_user
      rw [hf]
  · intro ck d hres
    unfold gl_find_recent_pending_for_user at hres
    cases hf : s.foldl (gl_scan_step u m rr now) none with
    | none =>
      rw [hf] at hres
      cases hres
    | some res =>
      rw [hf] at hres
      dsimp only at hres
      obtain ⟨h1, h2, -⟩ := scan_foldl_some u m rr now s none res hf
      rcases h1 with h1 | ⟨hmem, hrt, hage⟩
      · cases h1
      · cases hspc : split_key_cargo res.1 with
        | none =>
          rw [hspc] at hres
          cases hres
        | some ck' =>
          rw [hspc] at hres
          injection hres with hres
          injection hres with hres1 hres2
          subst hres1
          subst hres2
          exact ⟨res.1, res.2.2, hmem, hspc, hrt, hage, h2⟩

/-- C2: once `press_success` is set, a finalize-phase report re-emits the
stored verdict and message unchanged and leaves the store untouched. -/
theorem c2_finalize_idempotent_echo
    (u c bm incar w : String) (timp : Option Int) (ids : List String) (now : Int)
    (s : Store) (b : Bool) (msg : String)
    (hu : u.py_strip ≠ "") (hc : c.py_strip ≠ "")
    (hw : w.py_strip.py_lower = "after_click" ∨ w.py_strip.py_lower = "post_flow")
    (hb : (gl_get s u.py_strip (standard_cargo_key u.py_strip c.py_strip bm.py_strip ids).1).press_success
        = some b)
    (hm : (gl_get s u.py_strip (standard_cargo_key u.py_strip c.py_strip bm.py_strip ids).1).press_message
        = some msg)
    (hmne : msg ≠ "") :
    press_ack u c bm incar w timp ids now s = (s, AckOut.resp (some b) msg) := by
  have h1 : ¬ (u.py_strip = "" ∨ c.py_strip = "") := by
    rintro (h | h)
    · exact hu h
    · exact hc h
  simp only [press_ack]
  rw [if_neg h1]
  rcases hw with hw | hw <;>
  · rw [hw]
    rw [if_neg (by decide), if_neg (by decide), if_pos (by decide)]
    rw [hb]
    dsimp only
    rw [hm, Option.getD_some, if_pos hmne]


/-- C4: a first finalize-phase report computes `success` exactly as "the
normalized load-indicator value reported now is empty", with the matching
message, and stores that verdict. -/
theorem c4_first_finalize_success_rule
    (u c bm incar w : String) (timp : Option Int) (ids : List String) (now : Int)
    (s : Store)
    (hu : u.py_strip ≠ "") (hc : c.py_strip ≠ "")
    (hw : w.py_strip.py_lower = "after_click" ∨ w.py_strip.py_lower = "post_flow")
    (hps : (gl_get s u.py_strip (standard_cargo_key u.py_strip c.py_strip bm.py_strip ids).1).press_success
        = none) :
    (ack_success (press_ack u c bm incar w timp ids now s).2 = some true ↔
      norm_incarcare incar.py_strip = "")
    ∧ (norm_incarcare incar.py_strip = "" →
        (press_ack u c bm incar w timp ids now s).2 =
          AckOut.resp (some true) "Publish Successful!")
    ∧ (norm_incarcare incar.py_strip ≠ "" →
        (press_ack u c bm incar w timp ids now s).2 =
          AckOut.resp (some false) "Publish Failed!")
    ∧ (gl_get (press_ack u c bm incar w timp ids now s).1 u.py_strip
        (standard_cargo_key u.py_strip c.py_strip bm.py_strip ids).1).press_success
        = some (decide (norm_incarcare incar.py_strip = "")) := by
  have h1 : ¬ (u.py_strip = "" ∨ c.py_strip = "") := by
    rintro (h | h)
    · exact hu h
    · exact hc h
  simp only [press_ack]
  rw [if_neg h1]
  rcases hw with hw | hw <;>
  · rw [hw]
    rw [if_neg (by decide), if_neg (by decide), if_pos (by decide)]
    rw [hps]
    dsimp only
    rw [gl_get_gl_set_merge]
    dsimp only [ack_success]
    refine ⟨?_, ?_, ?_, rfl⟩
    · by_cases hn : norm_incarcare incar.py_strip = "" <;> simp [hn]
    · intro hn
      simp [hn]
    · intro hn
      simp [hn]

/-! ### Press-check lemmas -/

theorem greenlight_check_fire (u c bm : String) (ids : List String) (s : Store)
    (hu : u.py_strip ≠ "") (hc : c.py_strip ≠ "")
    (harm : (gl_get s u.py_strip (standard_cargo_key u.py_strip c.py_strip bm ids).1).armed.getD false
        = true)
    (hpr : (gl_get s u.py_strip
        (standard_cargo_key u.py_strip c.py_strip bm ids).1).pressed_once.getD false = false) :
    greenlight_check u c bm ids s =
      (gl_set u.py_strip (standard_cargo_key u.py_strip c.py_strip bm ids).1
        (fun cur => { cur with armed := some false, pressed_once := some true }) true s,
       CheckOut.resp true (standard_cargo_key u.py_strip c.py_strip bm ids).1) := by
  simp only [greenlight_check]
  rw [if_neg hu, if_neg hc, harm, hpr]
  rw [if_pos (by decide)]

theorem greenlight_check_noop (u c bm : String) (ids : List String) (s : Store)
    (hu : u.py_strip ≠ "") (hc : c.py_strip ≠ "")
    (h : (gl_get s u.py_strip (standard_cargo_key u.py_strip c.py_strip bm ids).1).armed.getD false
          = false
        ∨ (gl_get s u.py_strip
            (standard_cargo_key u.py_strip c.py_strip bm ids).1).pressed_once.getD false = true) :
    greenlight_check u c bm ids s =
      (s, CheckOut.resp false (standard_cargo_key u.py_strip c.py_strip bm ids).1) := by
  simp only [greenlight_check]
  rw [if_neg hu, if_neg hc]
  rcases h with h | h
  · rw [h]
    rw [if_neg (by simp)]
  · rw [h]
    rw [if_neg (by simp)]

theorem gl_check_iter_noop (u c bm : String) (ids : List String) (s : Store)
    (hu : u.py_strip ≠ "") (hc : c.py_strip ≠ "")
    (h : (gl_get s u.py_strip (standard_cargo_key u.py_strip c.py_strip bm ids).1).armed.getD false
          = false
        ∨ (gl_get s u.py_strip
            (standard_cargo_key u.py_strip c.py_strip bm ids).1).pressed_once.getD false = true) :
    ∀ n, gl_check_iter u c bm ids n s = (s, List.replicate n false) := by
  intro n
  induction n with
  | zero => rfl
  | succ n ih =>
    rw [gl_check_iter]
    rw [greenlight_check_noop u c bm ids s hu hc h]
    dsimp only
    rw [ih]
    dsimp only [check_go]
    rw [List.replicate_succ]

/-- C3: the press check fires (`go = true`) exactly when the record is
armed and not yet pressed; firing flips the record to pressed; any state
failing the condition answers `go = false` without touching the store;
iterating the check, exactly one call in the sequence answers `go = true`
and the key ends pressed. -/
theorem c3_press_check_consumption (u c bm : String) (ids : List String) (s : Store)
    (hu : u.py_strip ≠ "") (hc : c.py_strip ≠ "")
    (harm : (gl_get s u.py_strip (standard_cargo_key u.py_strip c.py_strip bm ids).1).armed.getD false
        = true)
    (hpr : (gl_get s u.py_strip
        (standard_cargo_key u.py_strip c.py_strip bm ids).1).pressed_once.getD false = false) :
    (greenlight_check u c bm ids s).2 =
      CheckOut.resp true (standard_cargo_key u.py_strip c.py_strip bm ids).1
    ∧ (gl_get (greenlight_check u c bm ids s).1 u.py_strip
        (standard_cargo_key u.py_strip c.py_strip bm ids).1).armed = some false
    ∧ (gl_get (greenlight_check u c bm ids s).1 u.py_strip
        (standard_cargo_key u.py_strip c.py_strip bm ids).1).pressed_once = some true
    ∧ (∀ s2 : Store,
        (gl_get s2 u.py_strip (standard_cargo_key u.py_strip c.py_strip bm ids).1).armed.getD false
            = false
          ∨ (gl_get s2 u.py_strip
              (standard_cargo_key u.py_strip c.py_strip bm ids).1).pressed_once.getD false = true →
        greenlight_check u c bm ids s2 =
          (s2, CheckOut.resp false (standard_cargo_key u.py_strip c.py_strip bm ids).1))
    ∧ (∀ n, (gl_check_iter u c bm ids (n + 1) s).2.count true = 1
        ∧ (gl_get (gl_check_iter u c bm ids (n + 1) s).1 u.py_strip
            (standard_cargo_key u.py_strip c.py_strip bm ids).1).pressed_once = some true
        ∧ (gl_get (gl_check_iter u c bm ids (n + 1) s).1 u.py_strip
            (standard_cargo_key u.py_strip c.py_strip bm ids).1).armed = some false) := by
  have hfire := greenlight_check_fire u c bm ids s hu hc harm hpr
  have hget1 : (gl_get (greenlight_check u c bm ids s).1 u.py_strip
      (standard_cargo_key u.py_strip c.py_strip bm ids).1).armed = some false := by
    rw [hfire]
    dsimp only
    rw [gl_get_gl_set_merge]
  have hget2 : (gl_get (greenlight_check u c bm ids s).1 u.py_strip
      (standard_cargo_key u.py_strip c.py_strip bm ids).1).pressed_once = some true := by
    rw [hfire]
    dsimp only
    rw [gl_get_gl_set_merge]
  refine ⟨by rw [hfire], hget1, hget2,
    fun s2 h2 => greenlight_check_noop u c bm ids s2 hu hc h2, ?_⟩
  intro n
  have hiter : gl_check_iter u c bm ids (n + 1) s =
      ((greenlight_check u c bm ids s).1, true :: List.replicate n false) := by
    rw [gl_check_iter]
    rw [gl_check_iter_noop u c bm ids (greenlight_check u c bm ids s).1 hu hc
      (Or.inl (by rw [hget1]; rfl)) n]
    rw [hfire]
    dsimp only [check_go]
  rw [hiter]
  refine ⟨?_, hget2, hget1⟩
  simp [List.count_replicate]

/-! ### Page-ping lemmas -/

theorem page_ping_arm (p u c bm ps url : String) (ids : List String)
    (fdm : Option Int) (now : Int) (s : Store)
    (hp : p.py_strip.py_lower = "addload") (hc : c.py_strip ≠ "")
    (harm : (gl_get s u.py_strip (standard_cargo_key u.py_strip c.py_strip bm.py_strip ids).1).armed.getD
        false = false)
    (hpr : (gl_get s u.py_strip
        (standard_cargo_key u.py_strip c.py_strip bm.py_strip ids).1).pressed_once.getD false = false) :
    page_ping p u c bm ps url ids fdm now s =
      (gl_set u.py_strip (standard_cargo_key u.py_strip c.py_strip bm.py_strip ids).1
        (fun cur =>
          { cur with
            user := some u.py_strip
            cargo_id := some c.py_strip
            bm_id := some (standard_cargo_key u.py_strip c.py_strip bm.py_strip ids).2
            cargo_key := some (standard_cargo_key u.py_strip c.py_strip bm.py_strip ids).1
            armed := some true
            pressed_once := some false }) false s,
       ⟨true, true, none,
        some (if ((match fdm with
                   | some v => if v = 0 then 1 else v
                   | none => 1) : Int) ≤ 0 then 1
              else (match fdm with
                    | some v => if v = 0 then 1 else v
                    | none => 1)),
        some (standard_cargo_key u.py_strip c.py_strip bm.py_strip ids).1⟩) := by
  simp only [page_ping]
  rw [hp]
  rw [if_neg (by decide), if_neg (by decide), if_neg (by decide), if_neg hc]
  rw [harm, hpr]
  rw [if_pos (by decide)]

theorem page_ping_skip (p u c bm ps url : String) (ids : List String)
    (fdm : Option Int) (now : Int) (s : Store)
    (hp : p.py_strip.py_lower = "addload") (hc : c.py_strip ≠ "")
    (h : (gl_get s u.py_strip (standard_cargo_key u.py_strip c.py_strip bm.py_strip ids).1).pressed_once.getD
          false = true
        ∨ (gl_get s u.py_strip (standard_cargo_key u.py_strip c.py_strip bm.py_strip ids).1).armed.getD
          false = true) :
    page_ping p u c bm ps url ids fdm now s =
      (s,
       ⟨true,
        (gl_get s u.py_strip (standard_cargo_key u.py_strip c.py_strip bm.py_strip ids).1).armed.getD false
          && ! (gl_get s u.py_strip
                (standard_cargo_key u.py_strip c.py_strip bm.py_strip ids).1).pressed_once.getD false,
        none,
        some (if ((match fdm with
                   | some v => if v = 0 then 1 else v
                   | none => 1) : Int) ≤ 0 then 1
              else (match fdm with
                    | some v => if v = 0 then 1 else v
                    | none => 1)),
        some (standard_cargo_key u.py_strip c.py_strip bm.py_strip ids).1⟩) := by
  simp only [page_ping]
  rw [hp]
  rw [if_neg (by decide), if_neg (by decide), if_neg (by decide), if_neg hc]
  rcases h with h | h
  · rw [h]
    rw [if_neg (by simp)]
  · rw [h]
    rw [if_neg (by simp)]

/-- C9: on a cargo publish page, the first arrival for an unarmed,
unpressed key arms it and answers `go = true`; a second arrival is a
store no-op that again answers `go = true` from the existing state. -/
theorem c9_idempotent_arm (p p2 u c bm ps ps2 url url2 : String) (ids : List String)
    (fdm fdm2 : Option Int) (now now2 : Int) (s : Store)
    (hp : p.py_strip.py_lower = "addload") (hp2 : p2.py_strip.py_lower = "addload")
    (hc : c.py_strip ≠ "")
    (harm : (gl_get s u.py_strip (standard_cargo_key u.py_strip c.py_strip bm.py_strip ids).1).armed.getD
        false = false)
    (hpr : (gl_get s u.py_strip
        (standard_cargo_key u.py_strip c.py_strip bm.py_strip ids).1).pressed_once.getD false = false) :
    (page_ping p u c bm ps url ids fdm now s).2.go = true
    ∧ (gl_get (page_ping p u c bm ps url ids fdm now s).1 u.py_strip
        (standard_cargo_key u.py_strip c.py_strip bm.py_strip ids).1).armed = some true
    ∧ (gl_get (page_ping p u c bm ps url ids fdm now s).1 u.py_strip
        (standard_cargo_key u.py_strip c.py_strip bm.py_strip ids).1).pressed_once = some false
    ∧ (page_ping p2 u c bm ps2 url2 ids fdm2 now2
        (page_ping p u c bm ps url ids fdm now s).1).1
        = (page_ping p u c bm ps url ids fdm now s).1
    ∧ (page_ping p2 u c bm ps2 url2 ids fdm2 now2
        (page_ping p u c bm ps url ids fdm now s).1).2.go = true := by
  have h1 := page_ping_arm p u c bm ps url ids fdm now s hp hc harm hpr
  have hget1 : (gl_get (page_ping p u c bm ps url ids fdm now s).1 u.py_strip
      (standard_cargo_key u.py_strip c.py_strip bm.py_strip ids).1).armed = some true := by
    rw [h1]
    dsimp only
    rw [gl_get_gl_set_replace]
  have hget2 : (gl_get (page_ping p u c bm ps url ids fdm now s).1 u.py_strip
      (standard_cargo_key u.py_strip c.py_strip bm.py_strip ids).1).pressed_once = some false := by
    rw [h1]
    dsimp only
    rw [gl_get_gl_set_replace]
  have h2 := page_ping_skip p2 u c bm ps2 url2 ids fdm2 now2
    (page_ping p u c bm ps url ids fdm now s).1 hp2 hc
    (Or.inr (by rw [hget1]; rfl))
  refine ⟨by rw [h1], hget1, hget2, by rw [h2], ?_⟩
  rw [h2]
  dsimp only
  rw [hget1, hget2]
  rfl

/-- C10: key derivation.  With inputs already stripped (as every endpoint
strips them), a `"BM-"`-prefixed identifier is its own key and the
inventory is never consulted; otherwise a supplied alias wins; otherwise
the first inventory entry with the same trailing digits wins; otherwise
the raw identifier is the key. -/
theorem c10_key_derivation (u c bm : String) (ids : List String)
    (hct : c.py_strip = c) :
    (c.py_upper.py_startswith "BM-" = true →
      ∀ (bm' : String) (ids' : List String),
        standard_cargo_key u c bm' ids' = (c, c))
    ∧ (c.py_upper.py_startswith "BM-" = false → bm.py_strip = bm → bm ≠ "" →
        (standard_cargo_key u c bm ids).1 = bm)
    ∧ (c.py_upper.py_startswith "BM-" = false → bm.py_strip = "" → u ≠ "" →
        ((digits c = "" → (standard_cargo_key u c bm ids).1 = c)
         ∧ (∀ x, ids.find? (fun y => (digits y != "") && (digits y == digits c)) = some x →
              x.py_strip = x → x ≠ "" → (standard_cargo_key u c bm ids).1 = x)
         ∧ (digits c ≠ "" →
              ids.find? (fun y => (digits y != "") && (digits y == digits c)) = none →
              (standard_cargo_key u c bm ids).1 = c))) := by
  refine ⟨?_, ?_, ?_⟩
  · intro h bm' ids'
    simp only [standard_cargo_key]
    rw [hct, h]
    rw [if_pos rfl]
  · intro h hbt hbm
    simp only [standard_cargo_key]
    rw [hct, h]
    rw [if_neg (by simp)]
    rw [hbt]
    rw [if_pos hbm]
    simp only [pick_cargo_key]
    rw [hbt]
    rw [if_pos hbm]
  · intro h hbm0 hu
    refine ⟨?_, ?_, ?_⟩
    · intro hsuf
      simp only [standard_cargo_key]
      rw [hct, h]
      rw [if_neg (by simp)]
      rw [hbm0]
      rw [if_neg (by simp)]
      simp only [resolve_bm_for_cargo]
      rw [hsuf]
      rw [if_pos (Or.inr rfl)]
      simp only [pick_cargo_key]
      rw [hct]
      rw [if_neg (by decide)]
      split <;> rfl
    · intro x hfind hxt hxne
      have hpx := List.find?_some hfind
      have hsuf : digits c ≠ "" := by
        simp only [Bool.and_eq_true, bne_iff_ne, ne_eq, beq_iff_eq] at hpx
        intro hc0
        rw [hc0] at hpx
        exact hpx.1 hpx.2
      simp only [standard_cargo_key]
      rw [hct, h]
      rw [if_neg (by simp)]
      rw [hbm0]
      rw [if_neg (by simp)]
      simp only [resolve_bm_for_cargo]
      rw [if_neg (by rintro (h' | h'); exacts [hu h', hsuf h'])]
      rw [hfind]
      simp only [pick_cargo_key]
      rw [hxt]
      rw [if_pos hxne]
    · intro hsuf hfind
      simp only [standard_cargo_key]
      rw [hct, h]
      rw [if_neg (by simp)]
      rw [hbm0]
      rw [if_neg (by simp)]
      simp only [resolve_bm_for_cargo]
      rw [if_neg (by rintro (h' | h'); exacts [hu h', hsuf h'])]
      rw [hfind]
      simp only [pick_cargo_key]
      rw [hct]
      rw [if_neg (by decide)]
      split <;> rfl

/-- C8: starting from the empty store, any sequence of arm, phase-report,
press-check, auto-finalize and explicit-set requests leaves no record with
`armed` and `pressed_once` simultaneously true. -/
theorem c8_armed_pressed_invariant (ops : List GlOp) : invStore (runGlOps ops) := by
  unfold runGlOps
  exact invStore_foldl ops [] (fun kd h => by cases h)

/-- C1 (amended): auto-finalize writes the success verdict
(`press_success = true`, `press_message = "Publish Successful!"`,
final load-indicator recorded empty) unconditionally — for every stored
record, whatever load-indicator value it holds — and the reason tag never
changes the outcome. -/
theorem c1_auto_finalize_unconditional_success (u ck : String) (doc : Record)
    (r1 r2 : String) (now : Int) (s : Store) :
    (gl_get (gl_finalize_success u ck doc r1 now s)
      (if doc.user.getD "" = "" then u else doc.user.getD "") ck).press_success = some true
    ∧ (gl_get (gl_finalize_success u ck doc r1 now s)
      (if doc.user.getD "" = "" then u else doc.user.getD "") ck).press_message
        = some "Publish Successful!"
    ∧ (gl_get (gl_finalize_success u ck doc r1 now s)
      (if doc.user.getD "" = "" then u else doc.user.getD "") ck).press_incarcare_final
        = some ""
    ∧ (gl_get (gl_finalize_success u ck doc r1 now s)
      (if doc.user.getD "" = "" then u else doc.user.getD "") ck).armed = some false
    ∧ (gl_get (gl_finalize_success u ck doc r1 now s)
      (if doc.user.getD "" = "" then u else doc.user.getD "") ck).pressed_once = some true
    ∧ (gl_get (gl_finalize_success u ck doc r1 now s)
      (if doc.user.getD "" = "" then u else doc.user.getD "") ck).pending_since = none
    ∧ gl_finalize_success u ck doc r1 now s = gl_finalize_success u ck doc r2 now s := by
  simp [gl_finalize_success, gl_get_gl_set_merge]

/-- C1 (counterexample): a ready record whose stored last-known
load-indicator value is `"loaded"`; an explicit after-action report fed
that value computes the failure verdict, yet the recovery-scan
auto-finalize writes the success verdict for it. -/
theorem c1_counterexample :
    norm_incarcare ((gl_get [(gl_key "u" "C", loaded_rec)] "u" "C").last_incarcare.getD "")
      ≠ ""
    ∧ (press_ack "u" "C" ""
        ((gl_get [(gl_key "u" "C", loaded_rec)] "u" "C").last_incarcare.getD "")
        "after_click" none [] 105 ([] : Store)).2 = AckOut.resp (some false) "Publish Failed!"
    ∧ (gl_get (page_ping "addload" "u" "" "" "empty" "" [] none 105
        [(gl_key "u" "C", loaded_rec)]).1 "u" "C").press_success = some true
    ∧ (gl_get (page_ping "addload" "u" "" "" "empty" "" [] none 105
        [(gl_key "u" "C", loaded_rec)]).1 "u" "C").press_message
        = some "Publish Successful!" := by
  decide

/-- C5 (amended): after-action/post-flow and generic phase reports never
clear `pressed_once` and never re-arm; but a `prepared` or `before_click`
report unconditionally re-arms the key (`armed = true`,
`pressed_once = false`), as does the explicit arm command with
`press = true`. -/
theorem c5_pressed_terminal_for_phases (u c bm i w : String) (timp : Option Int)
    (ids : List String) (now : Int) (s : Store) {s' : Store} {out : AckOut}
    (h : press_ack u c bm i w timp ids now s = (s', out)) :
    ((w.py_strip.py_lower ≠ "prepared" ∧ w.py_strip.py_lower ≠ "before_click") →
      ∀ k, store_pressed s k = true →
        store_pressed s' k = true ∧ (store_armed s k = false → store_armed s' k = false))
    ∧ ((w.py_strip.py_lower = "prepared" ∨ w.py_strip.py_lower = "before_click") →
        u.py_strip ≠ "" → c.py_strip ≠ "" →
        (gl_get s' u.py_strip
          (standard_cargo_key u.py_strip c.py_strip bm.py_strip ids).1).pressed_once
            = some false
        ∧ (gl_get s' u.py_strip
            (standard_cargo_key u.py_strip c.py_strip bm.py_strip ids).1).armed
            = some true)
    ∧ (∀ (s2 : Store) {s2' : Store} {out2 : SetOut},
        u.py_strip ≠ "" → c.py_strip ≠ "" →
        set_greenlight u c true bm ids s2 = (s2', out2) →
        (gl_get s2' u.py_strip
          (standard_cargo_key u.py_strip c.py_strip bm ids).1).pressed_once = some false
        ∧ (gl_get s2' u.py_strip
            (standard_cargo_key u.py_strip c.py_strip bm ids).1).armed = some true) := by
  refine ⟨?_, ?_, ?_⟩
  · intro hw k hp
    simp only [press_ack] at h
    split at h
    · injection h with h1 h2
      subst h1
      exact ⟨hp, fun ha => ha⟩
    · split at h
      · exact absurd (by assumption) hw.1
      · split at h
        · exact absurd (by assumption) hw.2
        · split at h
          · split at h
            · -- first finalize: writes pressed_once := true, armed := false
              injection h with h1 h2
              subst h1
              simp only [gl_set] at *
              by_cases hk :
                  k = gl_key u.py_strip
                    (standard_cargo_key u.py_strip c.py_strip bm.py_strip ids).1
              · subst hk
                unfold store_pressed store_armed
                rw [storeLookup_storePut_self]
                exact ⟨rfl, fun _ => rfl⟩
              · unfold store_pressed store_armed at *
                rw [storeLookup_storePut_ne _ _ _ _ hk]
                exact ⟨hp, fun ha => ha⟩
            · -- idempotent echo: store unchanged
              injection h with h1 h2
              subst h1
              exact ⟨hp, fun ha => ha⟩
          · -- generic phase: armed/pressed_once untouched
            injection h with h1 h2
            subst h1
            simp only [gl_set] at *
            by_cases hk :
                k = gl_key u.py_strip
                  (standard_cargo_key u.py_strip c.py_strip bm.py_strip ids).1
            · subst hk
              unfold store_pressed store_armed at *
              rw [storeLookup_storePut_self]
              cases timp <;>
              · dsimp only
                exact ⟨hp, fun ha => ha⟩
            · unfold store_pressed store_armed at *
              rw [storeLookup_storePut_ne _ _ _ _ hk]
              exact ⟨hp, fun ha => ha⟩
  · intro hw hu hc
    have h1 : ¬ (u.py_strip = "" ∨ c.py_strip = "") := by
      rintro (h' | h')
      · exact hu h'
      · exact hc h'
    simp only [press_ack] at h
    rw [if_neg h1] at h
    rcases hw with hw | hw
    · rw [hw] at h
      rw [if_pos rfl] at h
      injection h with h2 h3
      subst h2
      rw [gl_get_gl_set_merge]
      exact ⟨rfl, rfl⟩
    · rw [hw] at h
      rw [if_neg (by decide), if_pos rfl] at h
      injection h with h2 h3
      subst h2
      rw [gl_get_gl_set_merge]
      exact ⟨rfl, rfl⟩
  · intro s2 s2' out2 hu hc hset
    have h1 : ¬ (u.py_strip = "" ∨ c.py_strip = "") := by
      rintro (h' | h')
      · exact hu h'
      · exact hc h'
    simp only [set_greenlight] at hset
    rw [if_neg h1] at hset
    injection hset with h2 h3
    subst h2
    rw [gl_get_gl_set_merge]
    exact ⟨rfl, rfl⟩

/-- C5 (counterexample): a pressed key (`pressed_once = true`) is re-armed
by a `prepared` phase report, which clears `pressed_once`. -/
theorem c5_counterexample :
    (gl_get pressed_store "u" "C").pressed_once = some true
    ∧ (gl_get pressed_store "u" "C").armed = some false
    ∧ (gl_get (press_ack "u" "C" "" "" "prepared" none [] 100 pressed_store).1
        "u" "C").pressed_once = some false
    ∧ (gl_get (press_ack "u" "C" "" "" "prepared" none [] 100 pressed_store).1
        "u" "C").armed = some true := by
  decide

/-- C6 (amended): in a `before_click` report the "before" load-indicator
value is first-write-wins (an existing non-blank value is kept, the new
report's value is only used to fill a blank), while the "before" numeric
parameter is overwritten by a newly reported value and kept only when the
new report carries none. -/
theorem c6_before_click_write_behavior (u c bm i w : String) (timp : Option Int)
    (ids : List String) (now : Int) (s : Store) {s' : Store} {out : AckOut}
    (hu : u.py_strip ≠ "") (hc : c.py_strip ≠ "")
    (hw : w.py_strip.py_lower = "before_click")
    (h : press_ack u c bm i w timp ids now s = (s', out)) :
    (((gl_get s u.py_strip
        (standard_cargo_key u.py_strip c.py_strip bm.py_strip ids).1).press_incarcare_before.getD
          "").py_strip ≠ "" →
      (gl_get s' u.py_strip
        (standard_cargo_key u.py_strip c.py_strip bm.py_strip ids).1).press_incarcare_before
        = some ((gl_get s u.py_strip
            (standard_cargo_key u.py_strip c.py_strip bm.py_strip ids).1).press_incarcare_before.getD
              "").py_strip)
    ∧ (((gl_get s u.py_strip
          (standard_cargo_key u.py_strip c.py_strip bm.py_strip ids).1).press_incarcare_before.getD
            "").py_strip = "" →
        (gl_get s' u.py_strip
          (standard_cargo_key u.py_strip c.py_strip bm.py_strip ids).1).press_incarcare_before
          = some (norm_incarcare i.py_strip))
    ∧ (∀ t0, timp = some t0 →
        (gl_get s' u.py_strip
          (standard_cargo_key u.py_strip c.py_strip bm.py_strip ids).1).press_timpde_before
          = some t0)
    ∧ (timp = none →
        (gl_get s' u.py_strip
          (standard_cargo_key u.py_strip c.py_strip bm.py_strip ids).1).press_timpde_before
          = (gl_get s u.py_strip
              (standard_cargo_key u.py_strip c.py_strip bm.py_strip ids).1).press_timpde_before) := by
  have h1 : ¬ (u.py_strip = "" ∨ c.py_strip = "") := by
    rintro (h' | h')
    · exact hu h'
    · exact hc h'
  simp only [press_ack] at h
  rw [if_neg h1, hw, if_neg (by decide), if_pos rfl] at h
  injection h with h2 h3
  subst h2
  rw [gl_get_gl_set_merge]
  refine ⟨?_, ?_, ?_, ?_⟩
  · intro hne
    dsimp only
    rw [if_neg hne]
  · intro h0
    dsimp only
    rw [if_pos h0]
  · intro t0 ht
    rw [ht]
  · intro ht
    rw [ht]

/-- C6 (counterexample): a second `before_click` report with a new numeric
parameter overwrites the stored "before" value (5 becomes 7), where
first-write-wins would have kept 5. -/
theorem c6_counterexample :
    (gl_get (press_ack "u" "C" "" "x" "before_click" (some 5) [] 100 ([] : Store)).1
      "u" "C").press_timpde_before = some 5
    ∧ (gl_get (press_ack "u" "C" "" "y" "before_click" (some 7) [] 101
        (press_ack "u" "C" "" "x" "before_click" (some 5) [] 100 ([] : Store)).1).1
        "u" "C").press_timpde_before = some 7
    ∧ (some (7 : Int)) ≠ some (5 : Int) := by
  decide

/-- Witness for C2 at a concrete finalized store. -/
theorem c2_finalize_idempotent_echo_witness :
    ("u".py_strip ≠ "" ∧ "BM-7".py_strip ≠ ""
      ∧ ("after_click".py_strip.py_lower = "after_click"
          ∨ "after_click".py_strip.py_lower = "post_flow")
      ∧ (gl_get finalized_store "u".py_strip
          (standard_cargo_key "u".py_strip "BM-7".py_strip "".py_strip []).1).press_success
          = some true
      ∧ (gl_get finalized_store "u".py_strip
          (standard_cargo_key "u".py_strip "BM-7".py_strip "".py_strip []).1).press_message
          = some "Publish Successful!"
      ∧ ("Publish Successful!" : String) ≠ "")
    ∧ press_ack "u" "BM-7" "" "stuff" "after_click" (none : Option Int) [] 105 finalized_store
        = (finalized_store, AckOut.resp (some true) "Publish Successful!") := by
  refine ⟨⟨by decide, by decide, Or.inl (by decide), by decide, by decide, by decide⟩, ?_⟩
  exact c2_finalize_idempotent_echo "u" "BM-7" "" "stuff" "after_click" none [] 105
    finalized_store true "Publish Successful!" (by decide) (by decide) (Or.inl (by decide))
    (by decide) (by decide) (by decide)

/-- Witness for C3 at a concrete armed store. -/
theorem c3_press_check_consumption_witness :
    ("u".py_strip ≠ "" ∧ "BM-1".py_strip ≠ ""
      ∧ (gl_get armed_store "u".py_strip
          (standard_cargo_key "u".py_strip "BM-1".py_strip "" []).1).armed.getD false = true
      ∧ (gl_get armed_store "u".py_strip
          (standard_cargo_key "u".py_strip "BM-1".py_strip "" []).1).pressed_once.getD false
          = false)
    ∧ (greenlight_check "u" "BM-1" "" [] armed_store).2
        = CheckOut.resp true (standard_cargo_key "u".py_strip "BM-1".py_strip "" []).1
    ∧ (gl_check_iter "u" "BM-1" "" [] (1 + 1) armed_store).2.count true = 1 := by
  refine ⟨⟨by decide, by decide, by decide, by decide⟩, ?_, ?_⟩
  · exact (c3_press_check_consumption "u" "BM-1" "" [] armed_store (by decide) (by decide)
      (by decide) (by decide)).1
  · exact ((c3_press_check_consumption "u" "BM-1" "" [] armed_store (by decide) (by decide)
      (by decide) (by decide)).2.2.2.2 1).1

/-- Witness for C4: a first `post_flow` finalize with a placeholder dash
load-indicator value succeeds. -/
theorem c4_first_finalize_success_rule_witness :
    ("u".py_strip ≠ "" ∧ "BM-9".py_strip ≠ ""
      ∧ ("post_flow".py_strip.py_lower = "after_click"
          ∨ "post_flow".py_strip.py_lower = "post_flow")
      ∧ (gl_get ([] : Store) "u".py_strip
          (standard_cargo_key "u".py_strip "BM-9".py_strip "".py_strip []).1).press_success
          = none
      ∧ norm_incarcare " – ".py_strip = "")
    ∧ (press_ack "u" "BM-9" "" " – " "post_flow" none [] 100 ([] : Store)).2
        = AckOut.resp (some true) "Publish Successful!" := by
  refine ⟨⟨by decide, by decide, Or.inr (by decide), by decide, by decide⟩, ?_⟩
  exact (c4_first_finalize_success_rule "u" "BM-9" "" " – " "post_flow" none [] 100 ([] : Store)
    (by decide) (by decide) (Or.inr (by decide)) (by decide)).2.1 (by decide)

/-- Witness for C5 at a concrete pressed store: an `after_click` report
keeps the key pressed. -/
theorem c5_pressed_terminal_for_phases_witness :
    (("after_click".py_strip.py_lower ≠ "prepared"
        ∧ "after_click".py_strip.py_lower ≠ "before_click")
      ∧ store_pressed pressed_store (gl_key "u" "C") = true)
    ∧ store_pressed
        (press_ack "u" "C" "" "zz" "after_click" none [] 100 pressed_store).1
        (gl_key "u" "C") = true := by
  refine ⟨⟨⟨by decide, by decide⟩, by decide⟩, ?_⟩
  exact ((c5_pressed_terminal_for_phases "u" "C" "" "zz" "after_click" none [] 100
    pressed_store rfl).1 ⟨by decide, by decide⟩ (gl_key "u" "C") (by decide)).1

/-- Witness for C6: the second `before_click` report's numeric value 7 is
stored. -/
theorem c6_before_click_write_behavior_witness :
    ("u".py_strip ≠ "" ∧ "C".py_strip ≠ ""
      ∧ "before_click".py_strip.py_lower = "before_click")
    ∧ (gl_get (press_ack "u" "C" "" "y" "before_click" (some 7) [] 101
        (press_ack "u" "C" "" "x" "before_click" (some 5) [] 100 ([] : Store)).1).1
        "u".py_strip
        (standard_cargo_key "u".py_strip "C".py_strip "".py_strip []).1).press_timpde_before
        = some 7 := by
  refine ⟨⟨by decide, by decide, by decide⟩, ?_⟩
  exact (c6_before_click_write_behavior "u" "C" "" "y" "before_click" (some 7) [] 101
    (press_ack "u" "C" "" "x" "before_click" (some 5) [] 100 ([] : Store)).1
    (by decide) (by decide) (by decide) rfl).2.2.1 7 rfl

/-- Witness for C7 at a concrete three-record store: the 2-second-old
record is selected, the 13-second-old record alone yields nothing. -/
theorem c7_recovery_scan_witness :
    ((∀ kd ∈ c7_store, (split_key_cargo kd.1).isSome)
      ∧ (∀ kd ∈ [(gl_key "u" "Old", ready_rec "87")], (split_key_cargo kd.1).isSome))
    ∧ gl_find_recent_pending_for_user "u" 12 true 100 [(gl_key "u" "Old", ready_rec "87")]
        = none
    ∧ (∃ k t, (k, ready_rec "98") ∈ c7_store ∧ split_key_cargo k = some "B"
        ∧ rec_ts "u" true (ready_rec "98") = some t ∧ (100 : Int) - t ≤ 12
        ∧ ∀ kd ∈ c7_store, ∀ t', rec_ts "u" true kd.2 = some t' →
            (100 : Int) - t' ≤ 12 → t' ≤ t) := by
  refine ⟨⟨by decide, by decide⟩, ?_, ?_⟩
  · refine (c7_recovery_scan "u" 12 true 100 [(gl_key "u" "Old", ready_rec "87")]
      (by decide)).1.mpr ?_
    intro kd hkd t ht
    rw [List.mem_singleton] at hkd
    subst hkd
    have h87 : rec_ts "u" true (gl_key "u" "Old", ready_rec "87").2 = some 87 := by decide
    rw [h87] at ht
    injection ht with ht
    subst ht
    decide
  · exact (c7_recovery_scan "u" 12 true 100 c7_store (by decide)).2 "B" (ready_rec "98")
      (by decide)

/-- Witness for C9 at the empty store. -/
theorem c9_idempotent_arm_witness :
    ("addload".py_strip.py_lower = "addload" ∧ "BM-3".py_strip ≠ ""
      ∧ (gl_get ([] : Store) "u".py_strip
          (standard_cargo_key "u".py_strip "BM-3".py_strip "".py_strip []).1).armed.getD false
          = false
      ∧ (gl_get ([] : Store) "u".py_strip
          (standard_cargo_key "u".py_strip "BM-3".py_strip
            "".py_strip []).1).pressed_once.getD false = false)
    ∧ (page_ping "addload" "u" "BM-3" "" "" "" [] none 100 ([] : Store)).2.go = true
    ∧ (page_ping "addload" "u" "BM-3" "" "" "" [] none 101
        (page_ping "addload" "u" "BM-3" "" "" "" [] none 100 ([] : Store)).1).1
        = (page_ping "addload" "u" "BM-3" "" "" "" [] none 100 ([] : Store)).1
    ∧ (page_ping "addload" "u" "BM-3" "" "" "" [] none 101
        (page_ping "addload" "u" "BM-3" "" "" "" [] none 100 ([] : Store)).1).2.go = true := by
  have h := c9_idempotent_arm "addload" "addload" "u" "BM-3" "" "" "" "" "" [] none none 100 101
    ([] : Store) (by decide) (by decide) (by decide) (by decide) (by decide)
  exact ⟨⟨by decide, by decide, by decide, by decide⟩, h.1, h.2.2.2.1, h.2.2.2.2⟩

/-- Witness for C10: the spec's two worked examples. -/
theorem c10_key_derivation_witness :
    ("12345".py_strip = "12345" ∧ "12345".py_upper.py_startswith "BM-" = false
      ∧ "".py_strip = "" ∧ ("u" : String) ≠ ""
      ∧ List.find? (fun y => (digits y != "") && (digits y == digits "12345")) ["BM-X-12345"]
          = some "BM-X-12345"
      ∧ "BM-X-12345".py_strip = "BM-X-12345" ∧ ("BM-X-12345" : String) ≠ ""
      ∧ "BM-Y-999".py_strip = "BM-Y-999" ∧ "BM-Y-999".py_upper.py_startswith "BM-" = true)
    ∧ (standard_cargo_key "u" "12345" "" ["BM-X-12345"]).1 = "BM-X-12345"
    ∧ standard_cargo_key "u2" "BM-Y-999" "zz" ["IGNORED"] = ("BM-Y-999", "BM-Y-999") := by
  refine ⟨⟨by decide, by decide, by decide, by decide, by decide, by decide, by decide,
    by decide, by decide⟩, ?_, ?_⟩
  · exact ((c10_key_derivation "u" "12345" "" ["BM-X-12345"] (by decide)).2.2 (by decide)
      (by decide) (by decide)).2.1 "BM-X-12345" (by decide) (by decide) (by decide)
  · exact (c10_key_derivation "u2" "BM-Y-999" "zz" ["IGNORED"] (by decide)).1 (by decide)
      "zz" ["IGNORED"]
